import Mathlib

/-!
Verification of the AutoLogViz core: a shallow embedding of the heuristic
log parser (`log_parser.py`) and the multi-method anomaly detector
(`anomaly_detector.py`), with theorems settling the frozen claims about
the natural-language specification.

Modelling conventions:
* Python strings are modelled as `List Char` (`Str`); character classes
  follow Python regex semantics on ASCII input.
* Python floats are modelled as exact rationals (`ℚ`).
* The two third-party numeric primitives used by the detector
  (StandardScaler + IsolationForest in the statistical method,
  TfidfVectorizer + DBSCAN in the text method) are opaque library calls;
  they are abstracted as oracle parameters, exactly at the library-call
  boundary.  Every theorem about the detector holds for every oracle.
* Sorting primitives (pandas `sort_values`, numpy `argsort`) do not fix a
  tie order; the embedding uses a deterministic stable sort.
-/

namespace ALV

/-- Python strings, modelled as lists of characters. -/
abbrev Str := List Char

/-- Shorthand turning a Lean string literal into the `Str` model. -/
def S (s : String) : Str := s.data

/-- Python whitespace test (`str.strip`, `\s`), restricted to ASCII. -/
def pySpace (c : Char) : Bool :=
  c = ' ' || c = '\t' || c = '\n' || c = '\r' || c = '\x0b' || c = '\x0c'

/-- Python `str.strip()`: drop whitespace from both ends. -/
def pyStrip (cs : Str) : Str :=
  ((cs.dropWhile pySpace).reverse.dropWhile pySpace).reverse

/-- A string is blank when it consists of whitespace only
(Python `not line.strip()`). -/
def isBlank (cs : Str) : Bool := cs.all pySpace

/-- Python `str.split(chr(10))`: split on newlines, keeping empty pieces. -/
def splitNl : Str → List Str
  | [] => [[]]
  | c :: cs =>
    if c = '\n' then [] :: splitNl cs
    else
      match splitNl cs with
      | [] => [[c]]
      | l :: ls => (c :: l) :: ls

/-- Python `str.upper()` on ASCII text. -/
def pyUpper (cs : Str) : Str := cs.map Char.toUpper

/-- Python `str.lower()` on ASCII text. -/
def pyLower (cs : Str) : Str := cs.map Char.toLower

/-! ## Anomaly detector data model

One row of the parsed table, as consumed by `AnomalyDetector`
(`anomaly_detector.py`).  The detector reads the columns `severity`,
`message`, `message_length`, `word_count` and `timestamp`; a timestamp is
either null (`none`) or an instant, measured in seconds (rational, so that
consecutive differences — `diff().dt.total_seconds()` — are exact). -/
structure Row where
  severity : Str
  message : Str
  messageLength : Nat
  wordCount : Nat
  timestamp : Option ℚ
deriving DecidableEq

/-- Number of records with a non-null timestamp
(`df.timestamp.notna().sum()`). -/
def countTs (df : List Row) : Nat := df.countP (fun r => r.timestamp.isSome)

/-! ## Method 1: statistical anomalies (`_detect_statistical_anomalies`)

The feature matrix stacks `message_length` and `word_count` (both columns
are always present in the schema).  `StandardScaler.fit_transform` followed
by `IsolationForest.fit_predict == -1` is the library boundary, abstracted
as the oracle `o`; the library contract returns one Boolean per input row. -/
def statisticalScores (o : List (Nat × Nat) → List Bool) (df : List Row) :
    List ℚ :=
  let X := df.map (fun r => (r.messageLength, r.wordCount))
  if df.length < 5 then List.replicate df.length 0
  else (o X).map (fun b => if b then (1 : ℚ) else 0)

/-! ## Message cleaning for the text method (`_clean_message`)

The Python code applies six `re.sub` passes:
dates `YYYY-MM-DD`, times `HH:MM:SS`, IPv4 addresses, standalone integers
(the last two with word boundaries), non-word non-space characters (to a
space), whitespace runs (to a space), then strips and lowercases.
The scanner below reproduces the leftmost, non-overlapping replacement
semantics; the boundary tests receive the previous character's word-ness. -/
def isWordC (c : Char) : Bool := c.isAlphanum || c = '_'

/-- Take a run of decimal digits; `some k` when `k ≥ 1` digits lead. -/
def digitRun (s : Str) : Nat := (s.takeWhile Char.isDigit).length

/-- Match `YYYY-MM-DD` at the head (length 10), as in the first
`re.sub` of `_clean_message`. -/
def dateLen (s : Str) : Option Nat :=
  match s with
  | a :: b :: c :: d :: e :: f :: g :: hh :: i :: j :: _ =>
    if a.isDigit && b.isDigit && c.isDigit && d.isDigit && e = '-' &&
       f.isDigit && g.isDigit && hh = '-' && i.isDigit && j.isDigit
    then some 10 else none
  | _ => none

/-- Match `HH:MM:SS` at the head (length 8), second `re.sub`. -/
def timeLen (s : Str) : Option Nat :=
  match s with
  | a :: b :: c :: d :: e :: f :: g :: hh :: _ =>
    if a.isDigit && b.isDigit && c = ':' && d.isDigit && e.isDigit &&
       f = ':' && g.isDigit && hh.isDigit
    then some 8 else none
  | _ => none

/-- Match an IPv4-shaped token with word boundaries on both sides
(`\b\d+\.\d+\.\d+\.\d+\b`); `pw` is the word-ness of the previous
character. -/
def ipLen (pw : Bool) (s : Str) : Option Nat :=
  if pw then none else
  let k1 := digitRun s
  if k1 = 0 then none else
  match (s.drop k1).head? with
  | some '.' =>
    let s2 := s.drop (k1 + 1)
    let k2 := digitRun s2
    if k2 = 0 then none else
    match (s2.drop k2).head? with
    | some '.' =>
      let s3 := s2.drop (k2 + 1)
      let k3 := digitRun s3
      if k3 = 0 then none else
      match (s3.drop k3).head? with
      | some '.' =>
        let s4 := s3.drop (k3 + 1)
        let k4 := digitRun s4
        if k4 = 0 then none else
        match (s4.drop k4).head? with
        | some c => if isWordC c then none else some (k1 + k2 + k3 + k4 + 3)
        | none => some (k1 + k2 + k3 + k4 + 3)
      | _ => none
    | _ => none
  | _ => none

/-- Match a standalone integer (`\b\d+\b`). -/
def numLen (pw : Bool) (s : Str) : Option Nat :=
  if pw then none else
  let k := digitRun s
  if k = 0 then none else
  match (s.drop k).head? with
  | some c => if isWordC c then none else some k
  | none => some k

/-- Match one non-word, non-space character (`[^\w\s]`). -/
def punctLen (s : Str) : Option Nat :=
  match s.head? with
  | some c => if !isWordC c && !pySpace c then some 1 else none
  | none => none

/-- Match a whitespace run (`\s+`). -/
def wsLen (s : Str) : Option Nat :=
  let k := (s.takeWhile pySpace).length
  if k = 0 then none else some k

/-- Leftmost, non-overlapping global substitution (Python `re.sub`).
`m` reports a match length at the head of the remaining text given the
word-ness of the previous character of the original string; matches are
never empty.  `rep` is the replacement text. -/
def subG (m : Bool → Str → Option Nat) (rep : Str) : Bool → Str → Str
  | _, [] => []
  | pw, c :: rest =>
    match m pw (c :: rest) with
    | some (k + 1) =>
      rep ++ subG m rep (isWordC ((c :: rest).getD k c)) ((c :: rest).drop (k + 1))
    | _ => c :: subG m rep (isWordC c) rest
termination_by _ s => s.length
decreasing_by
  · simp only [List.drop_succ_cons, List.length_cons, List.length_drop]
    omega
  · simp

/-- `AnomalyDetector._clean_message`: the six substitution passes, then
strip and lowercase. -/
def cleanMessage (msg : Str) : Str :=
  let s1 := subG (fun _ s => dateLen s) [] false msg
  let s2 := subG (fun _ s => timeLen s) [] false s1
  let s3 := subG ipLen [] false s2
  let s4 := subG numLen [] false s3
  let s5 := subG (fun _ s => punctLen s) [' '] false s4
  let s6 := subG (fun _ s => wsLen s) [' '] false s5
  pyLower (pyStrip s6)

/-! ## Method 2: text anomalies (`_detect_text_anomalies`)

TF-IDF vectorisation plus DBSCAN clustering is the library boundary,
abstracted as the oracle `o` on the cleaned corpus: `none` models an empty
vocabulary (`tfidf_matrix.shape[1] == 0`) or an internal failure — all
zeros; `some labels` models the cluster labels, one per document, where
label `-1` (noise) scores 1. -/
def textScores (o : List Str → Option (List Int)) (df : List Row) : List ℚ :=
  let messages := df.map (fun r => r.message)
  if messages.length < 5 then List.replicate df.length 0
  else
    let cleaned := messages.map cleanMessage
    match o cleaned with
    | none => List.replicate df.length 0
    | some labels => labels.map (fun l => if l = -1 then (1 : ℚ) else 0)

/-! ## Method 3: temporal anomalies (`_detect_temporal_anomalies`) -/

/-- `numpy.percentile` with the default linear interpolation:
sort, then interpolate at position `q (n-1) / 100`. -/
def percentile (xs : List ℚ) (q : ℚ) : ℚ :=
  let s := List.insertionSort (· ≤ ·) xs
  let pos : ℚ := q * ((s.length : ℚ) - 1) / 100
  let i : Nat := (Rat.floor pos).toNat
  let frac : ℚ := pos - (i : ℚ)
  match s.get? i, s.get? (i + 1) with
  | some a, some b => a + frac * (b - a)
  | some a, none => a
  | none, _ => 0

/-- Timestamp of an indexed row, defaulting to 0 (used only on rows whose
timestamp is non-null). -/
def tval (p : Nat × Row) : ℚ := (p.2.timestamp.getD 0)

/-- `_detect_temporal_anomalies`: restrict to rows with a non-null
timestamp, skip (all zeros) when fewer than 10 remain, sort by timestamp,
take consecutive gaps in seconds (dropping the undefined first gap), skip
when fewer than 5 gaps remain, flag gaps outside the 1.5·IQR fences, and
write the flag back to the later endpoint of each gap. -/
def temporalScores (df : List Row) : List ℚ :=
  let wt := df.enum.filter (fun p => p.2.timestamp.isSome)
  if wt.length < 10 then List.replicate df.length 0
  else
    let sorted := List.insertionSort (fun a b => tval a ≤ tval b) wt
    let ts := sorted.map tval
    let diffs := (ts.zip ts.tail).map (fun p => p.2 - p.1)
    if diffs.length < 5 then List.replicate df.length 0
    else
      let q25 := percentile diffs 25
      let q75 := percentile diffs 75
      let iqr := q75 - q25
      let lowerBound := q25 - 3/2 * iqr
      let upperBound := q75 + 3/2 * iqr
      let flags := diffs.map (fun d => decide (d < lowerBound) || decide (upperBound < d))
      let laterIdx := (sorted.map (fun p => p.1)).tail
      (laterIdx.zip flags).foldl
        (fun acc p => acc.set p.1 (if p.2 then 1 else 0))
        (List.replicate df.length 0)

/-! ## Method 4: severity anomalies (`_detect_severity_anomalies`) -/

/-- The fixed expected frequency bands (`expected_ranges`). -/
def expectedRanges : List (Str × ℚ × ℚ) :=
  [(S "ERROR", 1/1000, 1/10), (S "FATAL", 1/10000, 1/20),
   (S "WARNING", 1/100, 3/10), (S "INFO", 3/10, 19/20),
   (S "DEBUG", 0, 1/2)]

/-- Observed frequency of a severity (`severity_counts / total_logs`). -/
def sevFreq (df : List Row) (sv : Str) : ℚ :=
  (df.countP (fun r => r.severity = sv) : ℚ) / (df.length : ℚ)

/-- `severity_anomalies[df.severity == sv] = v`: positional masked
assignment over the score vector. -/
def maskSet (df : List Row) (sv : Str) (v : ℚ) (acc : List ℚ) : List ℚ :=
  (acc.zip df).map (fun p => if p.2.severity = sv then v else p.1)

/-- One iteration of the band loop: if the severity occurs
(`severity in severity_frequencies`) and its frequency leaves the band,
mark all its records 0.5. -/
def bandStep (df : List Row) (acc : List ℚ) (e : Str × ℚ × ℚ) : List ℚ :=
  if df.any (fun r => r.severity = e.1) then
    if sevFreq df e.1 < e.2.1 || e.2.2 < sevFreq df e.1
    then maskSet df e.1 (1/2) acc else acc
  else acc

/-- One iteration of the rare loop: mark all records of a rare severity
1.0. -/
def rareStep (df : List Row) (acc : List ℚ) (sv : Str) : List ℚ :=
  maskSet df sv 1 acc

/-- The rare severities: distinct severities (the `value_counts` index)
whose frequency is below 0.01. -/
def rareSevs (df : List Row) : List Str :=
  ((df.map (fun r => r.severity)).dedup).filter
    (fun sv => sevFreq df sv < 1/100)

/-- `_detect_severity_anomalies`: severities among the five named bands
whose observed frequency leaves the band mark their records 0.5; then any
severity with frequency below 0.01 marks its records 1.0 (the rare loop
runs second, so it overrides the 0.5). -/
def severityScores (df : List Row) : List ℚ :=
  let base := List.replicate df.length (0 : ℚ)
  let afterBands := expectedRanges.foldl (bandStep df) base
  (rareSevs df).foldl (rareStep df) afterBands

/-! ## Method 5: pattern anomalies (`_detect_pattern_anomalies`) -/

/-- The ten suspicious substring patterns, each a list of literal parts
joined by `.*` in the source regexes. -/
def suspiciousPatterns : List (List Str) :=
  [[S "failed", S "login"], [S "unauthorized", S "access"],
   [S "connection", S "refused"], [S "timeout", S "exceeded"],
   [S "memory", S "leak"], [S "stack", S "overflow"],
   [S "null", S "pointer"], [S "out", S "of", S "memory"],
   [S "deadlock", S "detected"], [S "permission", S "denied"]]

/-- The suffix strictly after the first occurrence of `pat`, if any. -/
def afterFirst (pat : Str) : Str → Option Str
  | [] => if pat = [] then some [] else none
  | c :: rest =>
    if pat.isPrefixOf (c :: rest) then some ((c :: rest).drop pat.length)
    else afterFirst pat rest

/-- Do the parts occur, in order, inside `s`? -/
def partsInOrder : List Str → Str → Bool
  | [], _ => true
  | p :: ps, s =>
    match afterFirst p s with
    | some s2 => partsInOrder ps s2
    | none => false

/-- `re.search` of an `a.*b`-shaped pattern: since `.` does not cross a
newline and the literal parts contain none, a match lives inside a single
newline-free segment. -/
def searchParts (parts : List Str) (s : Str) : Bool :=
  (splitNl s).any (fun seg => partsInOrder parts seg)

/-- Is there a run of at least 11 identical non-newline characters
(the regex is a captured character followed by 10+ backreferences)? -/
def hasRun11 : Str → Bool
  | [] => false
  | c :: rest =>
    (c ≠ '\n' && 10 ≤ (rest.takeWhile (fun d => d = c)).length) || hasRun11 rest

/-- Per-message pattern score: the maximum of the triggered candidate
scores (0.7 suspicious pattern, 0.3 overlong, 0.2 non-ASCII, 0.4 repeated
run), starting from 0. -/
def patternScore (msg : Str) : ℚ :=
  let ml := pyLower msg
  let s0 : ℚ := 0
  let s1 := if suspiciousPatterns.any (fun ps => searchParts ps ml)
            then max s0 (7/10) else s0
  let s2 := if 1000 < msg.length then max s1 (3/10) else s1
  let s3 := if msg.any (fun c => 127 < c.toNat) then max s2 (1/5) else s2
  if hasRun11 msg then max s3 (2/5) else s3

/-- `_detect_pattern_anomalies`. -/
def patternScores (df : List Row) : List ℚ :=
  df.map (fun r => patternScore r.message)

/-! ## Ensemble combiner (`_combine_anomaly_scores`) -/

/-- The fixed relative weights, in method order
statistical, text, temporal, severity, pattern. -/
def baseWeights : List ℚ := [1/5, 1/4, 1/5, 3/20, 1/5]

/-- The weight vector actually used for `m` stacked methods: the base
weights truncated to the first `m` entries and renormalised to sum 1. -/
def normWeights (m : Nat) : List ℚ :=
  let w := baseWeights.take m
  let s := w.sum
  w.map (fun x => x / s)

/-- Per-record weighted average (`np.average(..., axis=1, weights=...)`),
which divides by the sum of the supplied weights. -/
def finalScores (scores : List (List ℚ)) (n : Nat) : List ℚ :=
  let wn := normWeights scores.length
  (List.range n).map (fun i =>
    ((wn.zip scores).map (fun p => p.1 * p.2.getD i 0)).sum / wn.sum)

/-- `_combine_anomaly_scores`: weighted average, 0.3 threshold, and the
20 % verbosity cap via `argsort`.  A malformed stack (which would make
`np.column_stack` raise) lands in the swallowed-exception branch, `[]`.
Note `[-k:]` is the whole array when `k = 0` (numpy slicing). -/
def combineScores (scores : List (List ℚ)) (n : Nat) : List Nat :=
  if scores.isEmpty then []
  else if scores.all (fun v => v.length = n) then
    let fs := finalScores scores n
    let idx := (List.range n).filter (fun i => (3 : ℚ)/10 < fs.getD i 0)
    if (n : ℚ) * (1/5) < (idx.length : ℚ) then
      let sorted := List.insertionSort
        (fun i j => fs.getD i 0 ≤ fs.getD j 0) (List.range n)
      let k := n / 5
      if k = 0 then sorted else sorted.drop (sorted.length - k)
    else idx
  else []

/-- The list of per-method score vectors stacked by `detect_anomalies`:
statistical, text, temporal (only when strictly more than 10 records
carry a non-null timestamp), severity, pattern. -/
def methodScores (o1 : List (Nat × Nat) → List Bool)
    (o2 : List Str → Option (List Int)) (df : List Row) : List (List ℚ) :=
  [statisticalScores o1 df, textScores o2 df] ++
    (if 10 < countTs df then [temporalScores df] else []) ++
    [severityScores df, patternScores df]

/-- `AnomalyDetector.detect_anomalies`: empty result below 10 records,
otherwise run the methods and combine. -/
def detectAnomalies (o1 : List (Nat × Nat) → List Bool)
    (o2 : List Str → Option (List Int)) (df : List Row) : List Nat :=
  if df.length < 10 then []
  else combineScores (methodScores o1 o2 df) df.length

/-! ## Pointwise analysis of the severity method -/

lemma maskSet_length (df : List Row) (sv : Str) (v : ℚ) (acc : List ℚ)
    (h : acc.length = df.length) : (maskSet df sv v acc).length = df.length := by
  simp [maskSet, h]

lemma maskSet_getElem (df : List Row) (sv : Str) (v : ℚ) (acc : List ℚ)
    (h : acc.length = df.length) (i : Nat) (hi : i < df.length) :
    (maskSet df sv v acc)[i]? =
      some (if (df.get ⟨i, hi⟩).severity = sv then v
            else acc.get ⟨i, by rw [h]; exact hi⟩) := by
  have hz : (acc.zip df)[i]? =
      some (acc.get ⟨i, by rw [h]; exact hi⟩, df.get ⟨i, hi⟩) := by
    rw [← List.get?_eq_getElem?]
    exact (List.get?_zip_eq_some _ _ _ _).mpr
      ⟨by simp [List.get?_eq_getElem?, List.getElem?_eq_getElem], by
        simp [List.get?_eq_getElem?, List.getElem?_eq_getElem]⟩
  simp [maskSet, List.getElem?_map, hz]

lemma bandStep_length (df : List Row) (acc : List ℚ) (e : Str × ℚ × ℚ)
    (h : acc.length = df.length) : (bandStep df acc e).length = df.length := by
  unfold bandStep
  split
  · split
    · exact maskSet_length _ _ _ _ h
    · exact h
  · exact h

lemma bandStep_getElem (df : List Row) (acc : List ℚ) (e : Str × ℚ × ℚ)
    (h : acc.length = df.length) (i : Nat) (hi : i < df.length) :
    (bandStep df acc e)[i]? =
      if e.1 = (df.get ⟨i, hi⟩).severity ∧
         (sevFreq df e.1 < e.2.1 ∨ e.2.2 < sevFreq df e.1)
      then some (1/2) else acc[i]? := by
  have hacc : acc[i]? = some (acc.get ⟨i, by rw [h]; exact hi⟩) := by
    simp [List.getElem?_eq_getElem]
  unfold bandStep
  by_cases hm : e.1 = (df.get ⟨i, hi⟩).severity
  · have hany : df.any (fun r => r.severity = e.1) = true :=
      List.any_eq_true.mpr ⟨df.get ⟨i, hi⟩, List.get_mem df i hi, by simp [hm]⟩
    rw [if_pos hany]
    by_cases hv : sevFreq df e.1 < e.2.1 ∨ e.2.2 < sevFreq df e.1
    · have hb : (sevFreq df e.1 < e.2.1 || e.2.2 < sevFreq df e.1) = true := by
        simpa [decide_eq_true_iff] using hv
      rw [if_pos hb, maskSet_getElem df e.1 _ acc h i hi, if_pos hm.symm,
        if_pos ⟨hm, hv⟩]
    · have hb : ¬ ((sevFreq df e.1 < e.2.1 || e.2.2 < sevFreq df e.1) = true) := by
        simpa [decide_eq_true_iff] using hv
      rw [if_neg hb, if_neg (fun hc => hv hc.2), hacc]
  · by_cases hany : df.any (fun r => r.severity = e.1) = true
    · rw [if_pos hany]
      by_cases hb : (sevFreq df e.1 < e.2.1 || e.2.2 < sevFreq df e.1) = true
      · rw [if_pos hb, maskSet_getElem df e.1 _ acc h i hi,
          if_neg (fun hc => hm hc.symm), if_neg (fun hc => hm hc.1), hacc]
      · rw [if_neg hb, if_neg (fun hc => hm hc.1)]
    · rw [if_neg hany, if_neg (fun hc => hm hc.1)]

lemma bandsFold_length (df : List Row) :
    ∀ (ranges : List (Str × ℚ × ℚ)) (acc : List ℚ),
      acc.length = df.length →
      (ranges.foldl (bandStep df) acc).length = df.length
  | [], _, h => h
  | e :: rest, acc, h =>
    bandsFold_length df rest _ (bandStep_length df acc e h)

lemma bandsFold_getElem (df : List Row) :
    ∀ (ranges : List (Str × ℚ × ℚ)) (acc : List ℚ),
      acc.length = df.length → ∀ (i : Nat) (hi : i < df.length),
      (ranges.foldl (bandStep df) acc)[i]? =
        if ∃ e ∈ ranges, e.1 = (df.get ⟨i, hi⟩).severity ∧
            (sevFreq df e.1 < e.2.1 ∨ e.2.2 < sevFreq df e.1)
        then some (1/2) else acc[i]?
  | [], acc, h, i, hi => by simp
  | e :: rest, acc, h, i, hi => by
    rw [List.foldl_cons,
      bandsFold_getElem df rest _ (bandStep_length df acc e h) i hi,
      bandStep_getElem df acc e h i hi]
    by_cases h1 : ∃ e2 ∈ rest, e2.1 = (df.get ⟨i, hi⟩).severity ∧
        (sevFreq df e2.1 < e2.2.1 ∨ e2.2.2 < sevFreq df e2.1)
    · rw [if_pos h1, if_pos (by
        rcases h1 with ⟨e2, he2, hp⟩
        exact ⟨e2, List.mem_cons_of_mem _ he2, hp⟩)]
    · rw [if_neg h1]
      by_cases h2 : e.1 = (df.get ⟨i, hi⟩).severity ∧
          (sevFreq df e.1 < e.2.1 ∨ e.2.2 < sevFreq df e.1)
      · rw [if_pos h2, if_pos ⟨e, List.mem_cons_self _ _, h2⟩]
      · rw [if_neg h2, if_neg (by
          rintro ⟨e2, he2, hp⟩
          rcases List.mem_cons.mp he2 with rfl | hmem
          · exact h2 hp
          · exact h1 ⟨e2, hmem, hp⟩)]

lemma rareStep_length (df : List Row) (acc : List ℚ) (sv : Str)
    (h : acc.length = df.length) : (rareStep df acc sv).length = df.length :=
  maskSet_length _ _ _ _ h

lemma raresFold_getElem (df : List Row) :
    ∀ (svs : List Str) (acc : List ℚ),
      acc.length = df.length → ∀ (i : Nat) (hi : i < df.length),
      (svs.foldl (rareStep df) acc)[i]? =
        if (df.get ⟨i, hi⟩).severity ∈ svs then some 1 else acc[i]?
  | [], acc, h, i, hi => by simp
  | sv :: rest, acc, h, i, hi => by
    rw [List.foldl_cons,
      raresFold_getElem df rest _ (rareStep_length df acc sv h) i hi]
    by_cases h1 : (df.get ⟨i, hi⟩).severity ∈ rest
    · rw [if_pos h1, if_pos (List.mem_cons_of_mem _ h1)]
    · rw [if_neg h1]
      unfold rareStep
      rw [maskSet_getElem df sv _ acc h i hi]
      by_cases h2 : (df.get ⟨i, hi⟩).severity = sv
      · rw [if_pos h2, if_pos (by rw [h2]; exact List.mem_cons_self _ _)]
      · rw [if_neg h2, if_neg (by
          intro hc
          rcases List.mem_cons.mp hc with hc | hc
          · exact h2 hc
          · exact h1 hc)]
        exact (List.getElem?_eq_getElem (by rw [h]; exact hi)).symm

/-- Membership in the rare list is exactly the below-1 % test (the
severity of an existing record always occurs in the `value_counts`
index). -/
lemma mem_rareSevs (df : List Row) (i : Nat) (hi : i < df.length) :
    (df.get ⟨i, hi⟩).severity ∈ rareSevs df ↔
      sevFreq df (df.get ⟨i, hi⟩).severity < 1/100 := by
  unfold rareSevs
  rw [List.mem_filter]
  simp only [List.mem_dedup, List.mem_map, decide_eq_true_iff]
  exact ⟨fun h => h.2, fun h => ⟨⟨df.get ⟨i, hi⟩, List.get_mem df i hi, rfl⟩, h⟩⟩

/-- C4: in the severity method, a record scores 1.0 exactly when its
severity has overall frequency below 0.01 (regardless of band
membership — the rare rule overrides the band rule); otherwise it scores
0.5 exactly when its severity is one of the five banded severities and
its frequency leaves the band; otherwise 0 — in particular severities
outside the named five are subject only to the below-1 % rule. -/
theorem severityScores_characterisation (df : List Row) (i : Nat)
    (hi : i < df.length) :
    (severityScores df)[i]? =
      some (if sevFreq df (df.get ⟨i, hi⟩).severity < 1/100 then 1
            else if ∃ e ∈ expectedRanges, e.1 = (df.get ⟨i, hi⟩).severity ∧
                (sevFreq df e.1 < e.2.1 ∨ e.2.2 < sevFreq df e.1)
            then 1/2 else 0) := by
  unfold severityScores
  have hlen : (List.replicate df.length (0 : ℚ)).length = df.length := by simp
  rw [raresFold_getElem df (rareSevs df) _
      (bandsFold_length df expectedRanges _ hlen) i hi]
  rw [bandsFold_getElem df expectedRanges _ hlen i hi]
  rw [List.getElem?_replicate, if_pos hi]
  by_cases h1 : sevFreq df (df.get ⟨i, hi⟩).severity < 1/100
  · rw [if_pos ((mem_rareSevs df i hi).mpr h1), if_pos h1]
  · rw [if_neg (fun hc => h1 ((mem_rareSevs df i hi).mp hc)), if_neg h1]
    split <;> rfl

/-- Trivial oracle for the statistical method: flags nothing. -/
def oracleNone : List (Nat × Nat) → List Bool := fun X => X.map (fun _ => false)

/-- Trivial oracle for the text method: empty vocabulary. -/
def oracleEmpty : List Str → Option (List Int) := fun _ => none

/-- A well-behaved INFO row without a timestamp. -/
def rowInfo : Row :=
  { severity := S "INFO", message := S "ok", messageLength := 2,
    wordCount := 1, timestamp := none }

/-- A FATAL row without a timestamp. -/
def rowFatal : Row :=
  { severity := S "FATAL", message := S "boot", messageLength := 4,
    wordCount := 1, timestamp := none }

/-- The spec's rarity scenario scaled to 101 records: exactly one FATAL
among 100 INFO records, frequency 1/101 < 1 %. -/
def dfRare : List Row := List.replicate 100 rowInfo ++ [rowFatal]

set_option maxRecDepth 40000 in
/-- Witness for C4: the single FATAL record (0.99 % < 1 %) scores 1.0. -/
theorem severityScores_characterisation_witness :
    (severityScores dfRare)[100]? = some 1 :=
  (severityScores_characterisation dfRare 100 (by
      simp [dfRare])).trans (by with_unfolding_all decide)

/-! ## Claims about `detect_anomalies` -/

/-- C7: a table with fewer than 10 records (including the empty table)
yields an empty anomaly list immediately, regardless of record content. -/
theorem detect_below_ten_empty (o1 : List (Nat × Nat) → List Bool)
    (o2 : List Str → Option (List Int)) (df : List Row)
    (h : df.length < 10) : detectAnomalies o1 o2 df = [] := by
  simp [detectAnomalies, h]

/-- A deliberately alarming row: suspicious message, unlisted severity. -/
def rowSus : Row :=
  { severity := S "QUUX", message := S "unauthorized access from 1.2.3.4",
    wordCount := 5, messageLength := 32, timestamp := some 7 }

/-- Nine alarming records. -/
def dfNine : List Row := List.replicate 9 rowSus

/-- Witness for C7 at a 9-record table full of alarming content. -/
theorem detect_below_ten_empty_witness :
    detectAnomalies oracleNone oracleEmpty dfNine = [] :=
  detect_below_ten_empty oracleNone oracleEmpty dfNine (by decide)

/-- C2 (corrected): the temporal method participates in the ensemble
exactly when STRICTLY more than 10 records carry a non-null timestamp
(the gate is `notna().sum() > 10`); when it does, it sits at position 2
of the stack; with 10 or fewer timestamped records only the other four
methods are stacked. -/
theorem temporal_gate (o1 : List (Nat × Nat) → List Bool)
    (o2 : List Str → Option (List Int)) (df : List Row) :
    ((methodScores o1 o2 df).length = 5 ↔ 10 < countTs df) ∧
    (10 < countTs df →
      (methodScores o1 o2 df).get? 2 = some (temporalScores df)) ∧
    (countTs df ≤ 10 → methodScores o1 o2 df =
      [statisticalScores o1 df, textScores o2 df,
       severityScores df, patternScores df]) := by
  by_cases h : 10 < countTs df <;> simp [methodScores, h]

/-- A row carrying the timestamp `q`. -/
def rowAt (q : ℚ) : Row :=
  { severity := S "INFO", message := S "ok", messageLength := 2,
    wordCount := 1, timestamp := some q }

/-- Ten records, every one with a (distinct) non-null timestamp. -/
def dfTen : List Row := (List.range 10).map (fun i => rowAt i)

/-- Counterexample to C2 as stated: this table has 10 records, all 10
with a non-null timestamp, yet only four method vectors are stacked —
the temporal method does not run (the code requires strictly more than
10 timestamped records, not at least 10). -/
theorem temporal_gate_counterexample :
    10 ≤ dfTen.length ∧ 10 ≤ countTs dfTen ∧
      (methodScores oracleNone oracleEmpty dfTen).length = 4 :=
  ⟨by decide, by decide, by decide⟩

/-- C10: with the temporal method omitted (10 or fewer timestamped
records) the weight vector is truncated to its first four entries and
renormalised — `[1/4, 5/16, 1/4, 3/16]` — and is applied positionally to
[statistical, text, severity, pattern]: the severity method is weighted
0.25 (the slot named for the temporal weight) and the pattern method
0.1875 (the slot named for the severity weight). -/
theorem truncated_weights (o1 : List (Nat × Nat) → List Bool)
    (o2 : List Str → Option (List Int)) (df : List Row)
    (h : countTs df ≤ 10) :
    normWeights 4 = [1/4, 5/16, 1/4, 3/16] ∧
    ∀ i, i < df.length →
      (finalScores (methodScores o1 o2 df) df.length)[i]? =
        some ((1/4) * (statisticalScores o1 df).getD i 0 +
              (5/16) * (textScores o2 df).getD i 0 +
              (1/4) * (severityScores df).getD i 0 +
              (3/16) * (patternScores df).getD i 0) := by
  have hm : methodScores o1 o2 df =
      [statisticalScores o1 df, textScores o2 df,
       severityScores df, patternScores df] :=
    (temporal_gate o1 o2 df).2.2 h
  have hw : normWeights 4 = [1/4, 5/16, 1/4, 3/16] := by
    simp only [normWeights, baseWeights, List.take, List.sum_cons,
      List.sum_nil, List.map]
    norm_num
  refine ⟨hw, fun i hi => ?_⟩
  rw [finalScores, hm]
  simp only [List.length_cons, List.length_nil, hw]
  rw [List.getElem?_map, List.getElem?_range hi]
  simp only [Option.map_some, List.zip, List.zipWith, List.map,
    List.sum_cons, List.sum_nil]
  norm_num
  ring

/-- A 10-record table with no timestamps at all. -/
def dfPlain : List Row := List.replicate 10 rowInfo

/-- Witness for C10 at a concrete 10-record table without timestamps:
the renormalised four-method weights, and the weighted-average formula at
record 0. -/
theorem truncated_weights_witness :
    normWeights 4 = [1/4, 5/16, 1/4, 3/16] ∧
    (finalScores (methodScores oracleNone oracleEmpty dfPlain)
        dfPlain.length)[0]? =
      some ((1/4) * (statisticalScores oracleNone dfPlain).getD 0 0 +
            (5/16) * (textScores oracleEmpty dfPlain).getD 0 0 +
            (1/4) * (severityScores dfPlain).getD 0 0 +
            (3/16) * (patternScores dfPlain).getD 0 0) :=
  ⟨(truncated_weights oracleNone oracleEmpty dfPlain (by decide)).1,
   (truncated_weights oracleNone oracleEmpty dfPlain (by decide)).2 0
     (by decide)⟩

/-- C3: whenever strictly more than 20 % of the records exceed the 0.3
weighted-score threshold, detection instead returns exactly
`floor(0.2 · row_count)` records — valid, duplicate-free indices that
dominate every omitted record by weighted score. -/
theorem cap_override (o1 : List (Nat × Nat) → List Bool)
    (o2 : List Str → Option (List Int)) (df : List Row)
    (h10 : 10 ≤ df.length)
    (hlen : (methodScores o1 o2 df).all
      (fun v => v.length = df.length) = true)
    (hflag : (df.length : ℚ) * (1/5) <
      ((((List.range df.length).filter (fun i => (3 : ℚ)/10 <
          (finalScores (methodScores o1 o2 df) df.length).getD i 0)).length :
        ℚ))) :
    (detectAnomalies o1 o2 df).length = df.length / 5 ∧
    (detectAnomalies o1 o2 df).Nodup ∧
    (∀ i ∈ detectAnomalies o1 o2 df, i < df.length) ∧
    (∀ i ∈ detectAnomalies o1 o2 df, ∀ j, j < df.length →
      j ∉ detectAnomalies o1 o2 df →
      (finalScores (methodScores o1 o2 df) df.length).getD j 0 ≤
        (finalScores (methodScores o1 o2 df) df.length).getD i 0) := by
  have hne : (methodScores o1 o2 df).isEmpty = false := by
    simp [methodScores]
  have hres : detectAnomalies o1 o2 df =
      (List.insertionSort
        (fun i j => (finalScores (methodScores o1 o2 df) df.length).getD i 0 ≤
          (finalScores (methodScores o1 o2 df) df.length).getD j 0)
        (List.range df.length)).drop
        ((List.insertionSort
          (fun i j => (finalScores (methodScores o1 o2 df) df.length).getD i 0 ≤
            (finalScores (methodScores o1 o2 df) df.length).getD j 0)
          (List.range df.length)).length - df.length / 5) := by
    have hk : ¬ (df.length / 5 = 0) := by omega
    rw [detectAnomalies, if_neg (by omega)]
    simp only [combineScores, hne, Bool.false_eq_true, if_false]
    rw [if_pos hlen, if_pos hflag, if_neg hk]
  set fs := finalScores (methodScores o1 o2 df) df.length with hfs
  set sorted := List.insertionSort
    (fun i j => fs.getD i 0 ≤ fs.getD j 0) (List.range df.length) with hsorted
  have hperm : sorted.Perm (List.range df.length) :=
    List.perm_insertionSort _ _
  have hslen : sorted.length = df.length := by
    rw [hperm.length_eq, List.length_range]
  have hnd : sorted.Nodup := hperm.symm.nodup (List.nodup_range _)
  have hkn : df.length / 5 ≤ df.length := Nat.div_le_self _ _
  refine ⟨?_, ?_, ?_, ?_⟩
  · rw [hres, List.length_drop, hslen]
    omega
  · rw [hres]
    exact (List.drop_sublist _ _).nodup hnd
  · intro i hi
    rw [hres] at hi
    exact List.mem_range.mp (hperm.mem_iff.mp (List.mem_of_mem_drop hi))
  · intro i hi j hj hj2
    rw [hres] at hi hj2
    haveI : IsTotal Nat (fun i j => fs.getD i 0 ≤ fs.getD j 0) :=
      ⟨fun a b => le_total _ _⟩
    haveI : IsTrans Nat (fun i j => fs.getD i 0 ≤ fs.getD j 0) :=
      ⟨fun a b c hab hbc => le_trans hab hbc⟩
    have hsort : List.Sorted (fun i j => fs.getD i 0 ≤ fs.getD j 0) sorted :=
      List.sorted_insertionSort _ _
    have hjs : j ∈ sorted :=
      hperm.mem_iff.mpr (List.mem_range.mpr hj)
    have hsplit := List.take_append_drop (sorted.length - df.length / 5) sorted
    have hpw := List.pairwise_append.mp
      (show List.Pairwise (fun i j => fs.getD i 0 ≤ fs.getD j 0)
          (sorted.take (sorted.length - df.length / 5) ++
            sorted.drop (sorted.length - df.length / 5)) from by
        rw [hsplit]; exact hsort)
    have hjtake : j ∈ sorted.take (sorted.length - df.length / 5) := by
      rcases (List.mem_append.mp (by rw [hsplit]; exact hjs)) with hj3 | hj3
      · exact hj3
      · exact absurd hj3 hj2
    exact hpw.2.2 j hjtake i hi

/-- Statistical oracle that flags every record. -/
def oracleAll : List (Nat × Nat) → List Bool := fun X => X.map (fun _ => true)

/-- Text oracle that labels every document as noise. -/
def oracleNoise : List Str → Option (List Int) :=
  fun msgs => some (msgs.map (fun _ => (-1 : Int)))

set_option maxRecDepth 8000 in
/-- Witness for C3: with every record flagged by the statistical and text
oracles, all 10 records beat the 0.3 threshold, and the result is capped
at `10 / 5 = 2` records. -/
theorem cap_override_witness :
    (detectAnomalies oracleAll oracleNoise dfPlain).length =
      dfPlain.length / 5 :=
  (cap_override oracleAll oracleNoise dfPlain (by decide)
    (by with_unfolding_all decide) (by with_unfolding_all decide)).1

/-- C9: every index list returned by detection contains only valid
0-based offsets into the table and no duplicates — for every table and
every behaviour of the library oracles. -/
theorem detect_indices_valid (o1 : List (Nat × Nat) → List Bool)
    (o2 : List Str → Option (List Int)) (df : List Row) :
    (∀ i ∈ detectAnomalies o1 o2 df, i < df.length) ∧
    (detectAnomalies o1 o2 df).Nodup := by
  rw [detectAnomalies]
  split
  · simp
  · simp only [combineScores]
    split
    · simp
    · split
      · have hperm : (List.insertionSort
            (fun i j => (finalScores (methodScores o1 o2 df) df.length).getD i 0 ≤
              (finalScores (methodScores o1 o2 df) df.length).getD j 0)
            (List.range df.length)).Perm (List.range df.length) :=
          List.perm_insertionSort _ _
        have hnd := hperm.symm.nodup (List.nodup_range _)
        split
        · split
          · exact ⟨fun i hi => List.mem_range.mp (hperm.mem_iff.mp hi), hnd⟩
          · refine ⟨fun i hi => ?_, (List.drop_sublist _ _).nodup hnd⟩
            exact List.mem_range.mp (hperm.mem_iff.mp (List.mem_of_mem_drop hi))
        · refine ⟨fun i hi => ?_, (List.nodup_range _).filter _⟩
          exact List.mem_range.mp (List.mem_filter.mp hi).1
      · simp

/-! ## A small regex engine

`log_parser.py` matches its patterns with `re.match(pattern, line,
re.IGNORECASE)`.  The patterns use only character classes, literals,
concatenation, alternation (leftmost preference), greedy `*`/`+`/`?`/
bounded repetition over character classes, and named groups.  The engine
below implements exactly Python's leftmost/greedy backtracking order for
these constructs, in continuation-passing style; `re.match` is a prefix
match (the continuation accepts any remainder). -/

inductive Regex where
  | eps : Regex
  | charP : (Char → Bool) → Regex
  | cat : Regex → Regex → Regex
  | alt : Regex → Regex → Regex
  | starC : (Char → Bool) → Regex
  | group : String → Regex → Regex

/-- Captured groups: name to captured text, most recent first. -/
abbrev Caps := List (String × Str)

/-- Greedy backtracking for a character-class star: the run of matching
characters has length `n`; try the continuation on the longest take
first, then shorter. -/
def starBT (k : Str → Caps → Option Caps) (s : Str) (caps : Caps) :
    Nat → Option Caps
  | 0 => k s caps
  | n + 1 =>
    match k (s.drop (n + 1)) caps with
    | some r => some r
    | none => starBT k s caps n

/-- The matcher: first success in Python's preference order. -/
def rmatch : Regex → Str → Caps → (Str → Caps → Option Caps) → Option Caps
  | .eps, s, caps, k => k s caps
  | .charP _, [], _, _ => none
  | .charP p, c :: s, caps, k => if p c then k s caps else none
  | .cat a b, s, caps, k => rmatch a s caps (fun s2 c2 => rmatch b s2 c2 k)
  | .alt a b, s, caps, k =>
    match rmatch a s caps k with
    | some r => some r
    | none => rmatch b s caps k
  | .starC p, s, caps, k => starBT k s caps (s.takeWhile p).length
  | .group g r, s, caps, k =>
    rmatch r s caps
      (fun s2 c2 => k s2 ((g, s.take (s.length - s2.length)) :: c2))

/-- `re.match`: anchored at the start, any remainder allowed. -/
def pymatch (r : Regex) (s : Str) : Option Caps :=
  rmatch r s [] (fun _ caps => some caps)

/-- Group lookup in the captures (a group of these patterns captures at
most once). -/
def capLookup (caps : Caps) (g : String) : Option Str :=
  (caps.find? (fun p => p.1 = g)).map (fun p => p.2)

/-- Case-insensitive literal character (`re.IGNORECASE`). -/
def rchar (c : Char) : Regex := .charP (fun d => d.toLower = c.toLower)

/-- Case-insensitive literal word. -/
def rlit (w : String) : Regex := w.data.foldr (fun c r => .cat (rchar c) r) .eps

/-- Concatenation of a list of regexes. -/
def rcats (l : List Regex) : Regex := l.foldr .cat .eps

/-- Greedy `+` over a character class. -/
def rplus (p : Char → Bool) : Regex := .cat (.charP p) (.starC p)

/-- Greedy `?`. -/
def ropt (r : Regex) : Regex := .alt r .eps

/-- Exact repetition of a character class. -/
def rrep (p : Char → Bool) (n : Nat) : Regex :=
  rcats (List.replicate n (.charP p))

/-- Left-to-right alternation of a non-empty list. -/
def raltL : Regex → List Regex → Regex
  | r, [] => r
  | r, x :: xs => .alt r (raltL x xs)

/-- Python `\d` (ASCII). -/
def isDigitC (c : Char) : Bool := c.isDigit

/-- Python `\S` (ASCII). -/
def nonWsC (c : Char) : Bool := !pySpace c

/-- Python `.` without DOTALL: anything but a newline. -/
def anyC (c : Char) : Bool := c ≠ '\n'

/-! ## The pattern library (`LogParser.patterns`, in declaration order) -/

/-- `custom_domain`: source, ip, unix-epoch timestamp, severity token,
numeric value, whitespace-separated. -/
def reCustomDomain : Regex := rcats
  [.group "source" (rplus nonWsC), rplus pySpace,
   .group "ip" (rplus nonWsC), rplus pySpace,
   .group "timestamp" (rplus isDigitC), rplus pySpace,
   .group "severity" (rplus isWordC), rplus pySpace,
   .group "value" (rplus isDigitC)]

/-- `standard`: ISO-like date-time, optional bracketed severity, optional
source, message. -/
def reStandard : Regex := rcats
  [.group "timestamp" (rcats
     [rrep isDigitC 4, rchar '-', rrep isDigitC 2, rchar '-',
      rrep isDigitC 2, rplus pySpace, rrep isDigitC 2, rchar ':',
      rrep isDigitC 2, rchar ':', rrep isDigitC 2,
      ropt (.cat (rchar '.') (rplus isDigitC))]),
   .starC pySpace, ropt (rchar '['),
   .group "severity" (rplus isWordC), ropt (rchar ']'), .starC pySpace,
   ropt (.group "source" (rplus isWordC)), ropt (rchar ':'),
   .starC pySpace, .group "message" (.starC anyC)]

/-- `apache`: common-log date-time with timezone offset, bracketed
severity, message. -/
def reApache : Regex := rcats
  [.group "timestamp" (rcats
     [rrep isDigitC 2, rchar '/', rrep isWordC 3, rchar '/',
      rrep isDigitC 4, rchar ':', rrep isDigitC 2, rchar ':',
      rrep isDigitC 2, rchar ':', rrep isDigitC 2, rplus pySpace,
      .charP (fun c => c = '+' || c = '-'), rrep isDigitC 4]),
   rplus pySpace, rchar '[', .group "severity" (rplus isWordC),
   rchar ']', rplus pySpace, .group "message" (.starC anyC)]

/-- `syslog`: month-name day time, source, severity, message. -/
def reSyslog : Regex := rcats
  [.group "timestamp" (rcats
     [rrep isWordC 3, rplus pySpace,
      .alt (rrep isDigitC 2) (.charP isDigitC), rplus pySpace,
      rrep isDigitC 2, rchar ':', rrep isDigitC 2, rchar ':',
      rrep isDigitC 2]),
   rplus pySpace, .group "source" (rplus isWordC), rplus pySpace,
   .group "severity" (rplus isWordC), rchar ':', rplus pySpace,
   .group "message" (.starC anyC)]

/-- `java`: ISO date-time with comma milliseconds, severity, bracketed
source, message. -/
def reJava : Regex := rcats
  [.group "timestamp" (rcats
     [rrep isDigitC 4, rchar '-', rrep isDigitC 2, rchar '-',
      rrep isDigitC 2, rplus pySpace, rrep isDigitC 2, rchar ':',
      rrep isDigitC 2, rchar ':', rrep isDigitC 2, rchar ',',
      rrep isDigitC 3]),
   rplus pySpace, .group "severity" (rplus isWordC), rplus pySpace,
   rchar '[', .group "source" (rplus (fun c => c ≠ ']')), rchar ']',
   rplus pySpace, .group "message" (.starC anyC)]

/-- `simple`: a bare severity token, optionally bracketed, then message. -/
def reSimple : Regex := rcats
  [ropt (rchar '['),
   .group "severity" (raltL (rlit "ERROR")
     [rlit "WARN", rlit "WARNING", rlit "INFO", rlit "DEBUG",
      rlit "TRACE", rlit "FATAL", rlit "CRITICAL"]),
   ropt (rchar ']'), .starC pySpace, .group "message" (.starC anyC)]

/-- `fallback`: everything is the message. -/
def reFallback : Regex := .group "message" (.starC anyC)

/-- The ordered pattern table: name, regex, declared group names (the
keys of `match.groupdict()`). -/
def patternTable : List (String × Regex × List String) :=
  [("custom_domain", reCustomDomain,
    ["source", "ip", "timestamp", "severity", "value"]),
   ("standard", reStandard, ["timestamp", "severity", "source", "message"]),
   ("apache", reApache, ["timestamp", "severity", "message"]),
   ("syslog", reSyslog, ["timestamp", "source", "severity", "message"]),
   ("java", reJava, ["timestamp", "severity", "source", "message"]),
   ("simple", reSimple, ["severity", "message"]),
   ("fallback", reFallback, ["message"])]

/-! ## The line parser (`LogParser._parse_single_line`) -/

/-- A raw parsed entry, before `_post_process_dataframe`.  Fields that
Python may hold as `None` are `Option`s; `none` models Python `None`
(a named group that did not participate in the match). -/
structure RawEntry where
  timestamp : Option Str
  severity : Option Str
  source : Option Str
  message : Option Str
  lineNumber : Nat
  rawLine : Str
  patternUsed : String
deriving DecidableEq

/-- Python string interpolation of a possibly-`None` value. -/
def pyOptStr : Option Str → Str
  | some v => v
  | none => S "None"

/-- `entry.get(g, d)`: the stored value (even `None`, which interpolates
as the text \x22None\x22) when the key is present, else the default. -/
def entryGet (gd : List (String × Option Str)) (g : String) (d : Str) : Str :=
  match gd.find? (fun p => p.1 = g) with
  | some p => pyOptStr p.2
  | none => d

/-- `entry.setdefault(g, d)`: keep the stored value (even `None`) when
the key is present, else the default. -/
def fieldOf (gd : List (String × Option Str)) (g : String) (d : Option Str) :
    Option Str :=
  match gd.find? (fun p => p.1 = g) with
  | some p => p.2
  | none => d

/-- Build the entry dict from a successful match: `groupdict()`, the
`custom_domain` message synthesis, then the `setdefault` defaults. -/
def buildEntry (pname : String) (gnames : List String) (caps : Caps)
    (l : Str) (ln : Nat) : RawEntry :=
  let gd := gnames.map (fun g => (g, capLookup caps g))
  { timestamp := fieldOf gd "timestamp" none
    severity := fieldOf gd "severity" (some (S "INFO"))
    source := fieldOf gd "source" (some (S "unknown"))
    message :=
      if pname = "custom_domain" then
        some (entryGet gd "source" (S "unknown") ++ [' '] ++
          entryGet gd "ip" (S "unknown") ++ [' '] ++
          entryGet gd "severity" (S "INFO") ++ [' '] ++
          entryGet gd "value" (S "unknown"))
      else fieldOf gd "message" (some l)
    lineNumber := ln
    rawLine := l
    patternUsed := pname }

/-- Try the patterns in declaration order; first match wins. -/
def tryPatterns : List (String × Regex × List String) → Str → Nat →
    Option RawEntry
  | [], _, _ => none
  | (pname, r, gs) :: rest, l, ln =>
    match pymatch r l with
    | some caps => some (buildEntry pname gs caps l ln)
    | none => tryPatterns rest l ln

/-- `_parse_single_line`: strip, bail out on a blank line, try the
patterns, and fall back to the basic entry when nothing matches. -/
def parseSingleLine (line : Str) (ln : Nat) : Option RawEntry :=
  let l := pyStrip line
  if l.isEmpty then none
  else
    match tryPatterns patternTable l ln with
    | some e => some e
    | none => some
        { timestamp := none, severity := some (S "INFO"),
          source := some (S "unknown"), message := some l,
          lineNumber := ln, rawLine := l, patternUsed := "fallback" }

/-! ## Timestamp coercion (`LogParser._parse_timestamp`)

`datetime` values are modelled structurally.  `datetime.fromtimestamp`
is modelled in UTC (the container clock); it raises outside the year
range 1..9999, which for non-negative epochs is the bound 253402300799.
`datetime.strptime` is modelled through the regex engine with CPython's
`_strptime` directive regexes (whitespace in a format matches `\s+`;
matching is case-insensitive; the whole string must be consumed; an
out-of-range calendar date makes the format fail and the next one is
tried). -/

structure DateTime where
  year : Nat
  month : Nat
  day : Nat
  hour : Nat
  minute : Nat
  second : Nat
  microsecond : Nat
  tzMin : Option Int
deriving DecidableEq

/-- Leap year (Gregorian). -/
def isLeap (y : Nat) : Bool := y % 4 = 0 && (y % 100 ≠ 0 || y % 400 = 0)

/-- Days in a month. -/
def daysInMonth (y mo : Nat) : Nat :=
  if mo = 2 then (if isLeap y then 29 else 28)
  else if mo = 4 || mo = 6 || mo = 9 || mo = 11 then 30
  else 31

/-- The `datetime` constructor: `none` when any field is out of range
(this is the `ValueError` the parser swallows). -/
def mkDateTime (y mo d h mi s us : Nat) (tz : Option Int) :
    Option DateTime :=
  if 1 ≤ y && y ≤ 9999 && 1 ≤ mo && mo ≤ 12 && 1 ≤ d &&
     d ≤ daysInMonth y mo && h ≤ 23 && mi ≤ 59 && s ≤ 59 && us ≤ 999999
  then some ⟨y, mo, d, h, mi, s, us, tz⟩ else none

/-- Civil date from a day count since 1970-01-01 (Gregorian). -/
def civilFromDays (z0 : Nat) : Nat × Nat × Nat :=
  let z := z0 + 719468
  let era := z / 146097
  let doe := z % 146097
  let yoe := (doe - doe / 1460 + doe / 36524 - doe / 146096) / 365
  let y := yoe + era * 400
  let doy := doe - (365 * yoe + yoe / 4 - yoe / 100)
  let mp := (5 * doy + 2) / 153
  let d := doy - (153 * mp + 2) / 5 + 1
  let m := if mp < 10 then mp + 3 else mp - 9
  (if m ≤ 2 then y + 1 else y, m, d)

/-- `datetime.fromtimestamp` (UTC model): valid for epochs up to
9999-12-31 23:59:59. -/
def epochToDateTime (n : Nat) : Option DateTime :=
  if n ≤ 253402300799 then
    let c := civilFromDays (n / 86400)
    let rem := n % 86400
    some ⟨c.1, c.2.1, c.2.2, rem / 3600, rem % 3600 / 60, rem % 60, 0, none⟩
  else none

/-- Numeric value of a digit string. -/
def natOfDigits (s : Str) : Nat :=
  s.foldl (fun a c => a * 10 + (c.toNat - 48)) 0

/-- An exact (case-sensitive) character. -/
def chE (c : Char) : Regex := .charP (fun d => d = c)

/-- Character range test. -/
def between (lo hi : Char) (c : Char) : Bool := lo ≤ c && c ≤ hi

/-- `_strptime` directive `%Y`: four digits. -/
def dirY : Regex := .group "Y" (rrep isDigitC 4)

/-- Directive `%m`: `1[0-2]|0[1-9]|[1-9]`. -/
def dirm : Regex := .group "m" (raltL
  (.cat (chE '1') (.charP (between '0' '2')))
  [.cat (chE '0') (.charP (between '1' '9')), .charP (between '1' '9')])

/-- Directive `%d`: `3[01]|[12]\d|0[1-9]|[1-9]`. -/
def dird : Regex := .group "d" (raltL
  (.cat (chE '3') (.charP (fun c => c = '0' || c = '1')))
  [.cat (.charP (fun c => c = '1' || c = '2')) (.charP isDigitC),
   .cat (chE '0') (.charP (between '1' '9')), .charP (between '1' '9')])

/-- Directive `%H`: `2[0-3]|[0-1]\d|\d`. -/
def dirH : Regex := .group "H" (raltL
  (.cat (chE '2') (.charP (between '0' '3')))
  [.cat (.charP (fun c => c = '0' || c = '1')) (.charP isDigitC),
   .charP isDigitC])

/-- Directive `%M`: `[0-5]\d|\d`. -/
def dirM : Regex := .group "M" (raltL
  (.cat (.charP (between '0' '5')) (.charP isDigitC)) [.charP isDigitC])

/-- Directive `%S`: `6[0-1]|[0-5]\d|\d`. -/
def dirS : Regex := .group "S" (raltL
  (.cat (chE '6') (.charP (fun c => c = '0' || c = '1')))
  [.cat (.charP (between '0' '5')) (.charP isDigitC), .charP isDigitC])

/-- Directive `%f`: one to six digits, greedy. -/
def dirf : Regex := .group "f" (raltL (rrep isDigitC 6)
  [rrep isDigitC 5, rrep isDigitC 4, rrep isDigitC 3,
   rrep isDigitC 2, rrep isDigitC 1])

/-- Directive `%b`: a month abbreviation, case-insensitive. -/
def dirb : Regex := .group "b" (raltL (rlit "jan")
  [rlit "feb", rlit "mar", rlit "apr", rlit "may", rlit "jun",
   rlit "jul", rlit "aug", rlit "sep", rlit "oct", rlit "nov", rlit "dec"])

/-- Directive `%z`: `[+-]HH[:]MM[[:]SS]` or `Z`. -/
def dirz : Regex := .group "z" (.alt
  (rcats [.charP (fun c => c = '+' || c = '-'), .charP isDigitC,
    .charP isDigitC, ropt (chE ':'), .charP (between '0' '5'),
    .charP isDigitC,
    ropt (rcats [ropt (chE ':'), .charP (between '0' '5'),
      .charP isDigitC])])
  (rlit "Z"))

/-- A run of whitespace: what a literal space in a format compiles to. -/
def dirWs : Regex := rplus pySpace

/-- Month number of a captured `%b` abbreviation. -/
def monthOfAbbr (s : Str) : Nat :=
  let l := pyLower s
  match [S "jan", S "feb", S "mar", S "apr", S "may", S "jun", S "jul",
    S "aug", S "sep", S "oct", S "nov", S "dec"].indexOf l with
  | i => i + 1

/-- Timezone minutes of a captured `%z` text. -/
def tzOfStr (s : Str) : Int :=
  match s with
  | '+' :: rest => tzMagnitude rest
  | '-' :: rest => - tzMagnitude rest
  | _ => 0
where
  tzMagnitude (r : Str) : Int :=
    let digits := r.filter Char.isDigit
    let hh := natOfDigits (digits.take 2)
    let mm := natOfDigits ((digits.drop 2).take 2)
    (hh * 60 + mm : Nat)

/-- `datetime.strptime` with a compiled format: full match, captured
fields with CPython defaults (1900-01-01 00:00:00), then the `datetime`
constructor. -/
def strptime (fmt : Regex) (s : Str) : Option DateTime :=
  match rmatch fmt s []
    (fun rest caps => if rest.isEmpty then some caps else none) with
  | none => none
  | some caps =>
    let y := match capLookup caps "Y" with
      | some v => natOfDigits v | none => 1900
    let mo := match capLookup caps "m" with
      | some v => natOfDigits v
      | none => match capLookup caps "b" with
        | some v => monthOfAbbr v | none => 1
    let d := match capLookup caps "d" with
      | some v => natOfDigits v | none => 1
    let h := match capLookup caps "H" with
      | some v => natOfDigits v | none => 0
    let mi := match capLookup caps "M" with
      | some v => natOfDigits v | none => 0
    let sec := match capLookup caps "S" with
      | some v => natOfDigits v | none => 0
    let us := match capLookup caps "f" with
      | some v => natOfDigits v * 10 ^ (6 - v.length) | none => 0
    let tz := (capLookup caps "z").map tzOfStr
    mkDateTime y mo d h mi sec us tz

/-- The fixed ordered format list of `_parse_timestamp`; the Boolean
marks the Java format containing `,%f` (whose trial first rewrites every
comma of the candidate string to a dot). -/
def formatsList : List (Regex × Bool) :=
  [(rcats [dirY, chE '-', dirm, chE '-', dird, dirWs, dirH, chE ':',
      dirM, chE ':', dirS, chE '.', dirf], false),
   (rcats [dirY, chE '-', dirm, chE '-', dird, dirWs, dirH, chE ':',
      dirM, chE ':', dirS], false),
   (rcats [dirY, chE '-', dirm, chE '-', dird, dirWs, dirH, chE ':',
      dirM], false),
   (rcats [dird, chE '/', dirb, chE '/', dirY, chE ':', dirH, chE ':',
      dirM, chE ':', dirS, dirWs, dirz], false),
   (rcats [dirb, dirWs, dird, dirWs, dirH, chE ':', dirM, chE ':',
      dirS], false),
   (rcats [dirY, chE '-', dirm, chE '-', dird], false),
   (rcats [dirm, chE '/', dird, chE '/', dirY, dirWs, dirH, chE ':',
      dirM, chE ':', dirS], false),
   (rcats [dirm, chE '-', dird, chE '-', dirY, dirWs, dirH, chE ':',
      dirM, chE ':', dirS], false),
   (rcats [dirY, dirm, dird, dirWs, dirH, chE ':', dirM, chE ':',
      dirS], false),
   (rcats [dirY, chE '-', dirm, chE '-', dird, dirWs, dirH, chE ':',
      dirM, chE ':', dirS, chE ',', dirf], true)]

/-- The format loop, carrying the possibly comma-rewritten candidate
string (the rewrite persists into later trials and into the pandas
fallback, exactly as the Python local variable does). -/
def runFormats : List (Regex × Bool) → Str → Option DateTime × Str
  | [], s => (none, s)
  | (fmt, isJavaComma) :: rest, s =>
    let s2 := if isJavaComma && s.contains ','
      then s.map (fun c => if c = ',' then '.' else c) else s
    match strptime fmt s2 with
    | some dt => (some dt, s2)
    | none => runFormats rest s2

/-- Models the library call `pandas.to_datetime(s, errors=coerce)`: a
best-effort generic ISO-8601-style inference, `none` (`NaT`) on failure.
Only the qualitative contract matters here (a handful of ISO-like shapes
succeed; arbitrary non-date text yields `NaT`); the model tries the
ISO-like shapes via `strptime`. -/
def pandasToDatetime (s : Str) : Option DateTime :=
  [rcats [dirY, chE '-', dirm, chE '-', dird, dirWs, dirH, chE ':',
     dirM, chE ':', dirS, chE '.', dirf],
   rcats [dirY, chE '-', dirm, chE '-', dird, chE 'T', dirH, chE ':',
     dirM, chE ':', dirS, chE '.', dirf],
   rcats [dirY, chE '-', dirm, chE '-', dird, dirWs, dirH, chE ':',
     dirM, chE ':', dirS],
   rcats [dirY, chE '-', dirm, chE '-', dird, chE 'T', dirH, chE ':',
     dirM, chE ':', dirS],
   rcats [dirY, chE '-', dirm, chE '-', dird, dirWs, dirH, chE ':',
     dirM],
   rcats [dirY, chE '-', dirm, chE '-', dird],
   rcats [dirY, chE '/', dirm, chE '/', dird],
   rcats [dirY, dirm, dird]].foldr
    (fun fmt acc => match strptime fmt s with
      | some dt => some dt
      | none => acc) none

/-- `_parse_timestamp`: null in, null out; strip; a purely-digit token is
tried as a Unix epoch first (falling through on invalid range); then the
fixed format list in order; then the pandas fallback; `none` models both
Python `None` and `NaT`. -/
def parseTimestamp (o : Option Str) : Option DateTime :=
  match o with
  | none => none
  | some raw =>
    if raw.isEmpty then none
    else
      let s := pyStrip raw
      let viaFormats :=
        match runFormats formatsList s with
        | (some dt, _) => some dt
        | (none, s2) => pandasToDatetime s2
      if !s.isEmpty && s.all isDigitC then
        match epochToDateTime (natOfDigits s) with
        | some dt => some dt
        | none => viaFormats
      else viaFormats

/-! ## Post-processing (`LogParser._post_process_dataframe`) and the
batch parser (`LogParser.parse_logs`) -/

/-- The severity normalization table (`LogParser.severity_mapping`). -/
def severityMapping : List (Str × Str) :=
  [(S "FATAL", S "FATAL"), (S "CRITICAL", S "FATAL"),
   (S "ERROR", S "ERROR"), (S "ERR", S "ERROR"),
   (S "WARN", S "WARNING"), (S "WARNING", S "WARNING"),
   (S "INFO", S "INFO"), (S "INFORMATION", S "INFO"),
   (S "DEBUG", S "DEBUG"), (S "TRACE", S "DEBUG"),
   (S "NOTICE", S "INFO"), (S "TEST", S "INFO"), (S "REST", S "INFO"),
   (S "JSON", S "INFO"), (S "RAW", S "INFO")]

/-- Severity normalization as applied by the post-processing step:
uppercase, then `severity_mapping.get(x, x) if x else INFO` — a missing
value (`NaN`) passes through, an empty string is falsy and becomes INFO,
anything else is looked up with itself as the default. -/
def normSeverity (o : Option Str) : Option Str :=
  match o with
  | none => none
  | some s =>
    let u := pyUpper s
    if u.isEmpty then some (S "INFO")
    else some ((severityMapping.lookup u).getD u)

/-- Python `str.split()` with no separator: split on whitespace runs, no
empty words.  `w` accumulates the current word reversed (structural
recursion on the text, so that the definition evaluates by kernel
reduction). -/
def pySplitWsAux : Str → Str → List Str
  | [], w => if w.isEmpty then [] else [w.reverse]
  | c :: rest, w =>
    if pySpace c then
      if w.isEmpty then pySplitWsAux rest []
      else w.reverse :: pySplitWsAux rest []
    else pySplitWsAux rest (c :: w)

/-- Python `str.split()`. -/
def pySplitWs (s : Str) : List Str := pySplitWsAux s []

/-- One fully processed record (a row of the final table). -/
structure Record where
  timestamp : Option DateTime
  severity : Option Str
  source : Str
  message : Option Str
  lineNumber : Nat
  hasTimestamp : Bool
  messageLength : Option Nat
  wordCount : Option Nat
  patternUsed : String
  rawLine : Str
deriving DecidableEq

/-- `_post_process_dataframe`, one row at a time: normalize severity,
coerce the timestamp, fill and strip the source, strip the message, and
compute the derived fields. -/
def postProcess (e : RawEntry) : Record :=
  let sev := normSeverity e.severity
  let ts := parseTimestamp e.timestamp
  let src := pyStrip (match e.source with | some s => s | none => S "unknown")
  let msg := e.message.map pyStrip
  { timestamp := ts
    severity := sev
    source := src
    message := msg
    lineNumber := e.lineNumber
    hasTimestamp := ts.isSome
    messageLength := msg.map List.length
    wordCount := msg.map (fun m => (pySplitWs m).length)
    patternUsed := e.patternUsed
    rawLine := e.rawLine }

/-- The entry list assembled by `parse_logs` before post-processing:
strip the whole blob, split on newlines, enumerate from 1, skip blank
lines, parse each survivor. -/
def rawEntries (content : Str) : List RawEntry :=
  ((splitNl (pyStrip content)).enumFrom 1).filterMap
    (fun p => if isBlank p.2 then none else parseSingleLine p.2 p.1)

/-- `LogParser.parse_logs`: the full batch parse (an empty entry list
yields the empty table). -/
def parseLogs (content : Str) : List Record :=
  (rawEntries content).map postProcess

/-! ## Lines, blanks and stripping -/

/-- Number of non-blank segments. -/
def countNB (xs : List Str) : Nat := (xs.filter (fun l => !isBlank l)).length

/-- The count of non-blank lines of a text, as the spec counts them. -/
def countNonBlankLines (content : Str) : Nat := countNB (splitNl content)

lemma splitNl_ne_nil (cs : Str) : splitNl cs ≠ [] := by
  cases cs with
  | nil => simp [splitNl]
  | cons c cs =>
    simp only [splitNl]
    split
    · simp
    · cases h : splitNl cs <;> simp

/-- Merge two split results at the boundary: the last segment of the left
run continues into the first segment of the right run. -/
def joinSplits : List Str → List Str → List Str
  | [], ys => ys
  | [x], [] => [x]
  | [x], y :: ys => (x ++ y) :: ys
  | x :: xs, ys => x :: joinSplits xs ys

lemma joinSplits_cons (x : Str) (xs ys : List Str) (h : xs ≠ []) :
    joinSplits (x :: xs) ys = x :: joinSplits xs ys := by
  cases xs with
  | nil => exact absurd rfl h
  | cons a as => rfl

lemma splitNl_append (as bs : Str) :
    splitNl (as ++ bs) = joinSplits (splitNl as) (splitNl bs) := by
  induction as with
  | nil =>
    simp only [List.nil_append, splitNl]
    cases h : splitNl bs with
    | nil => exact absurd h (splitNl_ne_nil bs)
    | cons y ys => simp [joinSplits]
  | cons c cs ih =>
    simp only [List.cons_append, splitNl, List.append_eq]
    by_cases hc : c = '\n'
    · rw [if_pos hc, if_pos hc, ih,
        joinSplits_cons _ _ _ (splitNl_ne_nil cs)]
    · rw [if_neg hc, if_neg hc, ih]
      cases h : splitNl cs with
      | nil => exact absurd h (splitNl_ne_nil cs)
      | cons x xs =>
        cases xs with
        | nil =>
          cases hb : splitNl bs with
          | nil => exact absurd hb (splitNl_ne_nil bs)
          | cons y ys => simp [joinSplits]
        | cons x2 xs2 => simp [joinSplits]

lemma chars_of_splitNl (cs : Str) :
    ∀ seg ∈ splitNl cs, ∀ c ∈ seg, c ∈ cs := by
  induction cs with
  | nil =>
    intro seg hseg c hc
    simp only [splitNl, List.mem_singleton] at hseg
    subst hseg
    simp at hc
  | cons a as ih =>
    intro seg hseg c hc
    simp only [splitNl] at hseg
    by_cases ha : a = '\n'
    · rw [if_pos ha] at hseg
      rcases List.mem_cons.mp hseg with rfl | hseg
      · simp at hc
      · exact List.mem_cons_of_mem _ (ih seg hseg c hc)
    · rw [if_neg ha] at hseg
      rcases h : splitNl as with _ | ⟨l, ls⟩
      · rw [h] at hseg
        simp only [List.mem_singleton] at hseg
        subst hseg
        simp only [List.mem_singleton] at hc
        subst hc
        exact List.mem_cons_self _ _
      · rw [h] at hseg
        rcases List.mem_cons.mp hseg with rfl | hseg
        · rcases List.mem_cons.mp hc with rfl | hc
          · exact List.mem_cons_self _ _
          · exact List.mem_cons_of_mem _
              (ih l (h ▸ List.mem_cons_self _ _) c hc)
        · exact List.mem_cons_of_mem _
            (ih seg (h ▸ List.mem_cons_of_mem _ hseg) c hc)

lemma blank_of_allWs (cs : Str) (h : isBlank cs = true) :
    ∀ seg ∈ splitNl cs, isBlank seg = true := by
  intro seg hseg
  rw [isBlank, List.all_eq_true]
  intro c hc
  exact (List.all_eq_true.mp h) c (chars_of_splitNl cs seg hseg c hc)

lemma countNB_cons (x : Str) (xs : List Str) :
    countNB (x :: xs) = (if isBlank x then 0 else 1) + countNB xs := by
  simp only [countNB, List.filter_cons]
  by_cases h : isBlank x <;> simp [h, Nat.add_comm]

lemma countNB_of_all_blank (ys : List Str) (h : ∀ y ∈ ys, isBlank y = true) :
    countNB ys = 0 := by
  induction ys with
  | nil => rfl
  | cons y ys ih =>
    rw [countNB_cons, if_pos (h y (List.mem_cons_self _ _)),
      ih (fun z hz => h z (List.mem_cons_of_mem _ hz))]

lemma isBlank_append (a b : Str) :
    isBlank (a ++ b) = (isBlank a && isBlank b) := by
  simp [isBlank, List.all_append]

lemma countNB_joinSplits_right (xs ys : List Str) (hx : xs ≠ [])
    (hy : ∀ y ∈ ys, isBlank y = true) :
    countNB (joinSplits xs ys) = countNB xs := by
  induction xs with
  | nil => exact absurd rfl hx
  | cons x xs ih =>
    cases xs with
    | nil =>
      cases ys with
      | nil => rfl
      | cons y ys2 =>
        show countNB ((x ++ y) :: ys2) = countNB [x]
        rw [countNB_cons, countNB_cons, isBlank_append,
          (hy y (List.mem_cons_self _ _)), Bool.and_true,
          countNB_of_all_blank ys2
            (fun z hz => hy z (List.mem_cons_of_mem _ hz))]
        rfl
    | cons x2 xs2 =>
      rw [joinSplits_cons _ _ _ (by simp), countNB_cons, countNB_cons,
        ih (by simp)]

lemma countNB_joinSplits_left (xs ys : List Str)
    (hx : ∀ x ∈ xs, isBlank x = true) (hy : ys ≠ []) :
    countNB (joinSplits xs ys) = countNB ys := by
  induction xs with
  | nil => rfl
  | cons x xs ih =>
    cases xs with
    | nil =>
      cases ys with
      | nil => exact absurd rfl hy
      | cons y ys2 =>
        show countNB ((x ++ y) :: ys2) = countNB (y :: ys2)
        rw [countNB_cons, countNB_cons, isBlank_append,
          (hx x (List.mem_cons_self _ _)), Bool.true_and]
    | cons x2 xs2 =>
      rw [joinSplits_cons _ _ _ (by simp), countNB_cons,
        if_pos (hx x (List.mem_cons_self _ _)),
        ih (fun z hz => hx z (List.mem_cons_of_mem _ hz))]
      simp

/-- Stripping decomposes the text into a blank prefix, the stripped core
and a blank suffix. -/
lemma strip_decomp (cs : Str) : ∃ p q : Str,
    cs = p ++ pyStrip cs ++ q ∧ isBlank p = true ∧ isBlank q = true := by
  refine ⟨cs.takeWhile pySpace,
    ((cs.dropWhile pySpace).reverse.takeWhile pySpace).reverse, ?_, ?_, ?_⟩
  · conv_lhs => rw [← List.takeWhile_append_dropWhile pySpace cs]
    rw [List.append_assoc]
    congr 1
    conv_lhs => rw [← List.reverse_reverse (cs.dropWhile pySpace),
      ← List.takeWhile_append_dropWhile pySpace (cs.dropWhile pySpace).reverse]
    rw [List.reverse_append]
    rfl
  · rw [isBlank, List.all_eq_true]
    exact fun c hc => List.mem_takeWhile_imp hc
  · rw [isBlank, List.all_eq_true]
    intro c hc
    exact List.mem_takeWhile_imp (List.mem_reverse.mp hc)

lemma joinSplits_ne_nil (xs ys : List Str) (hx : xs ≠ []) :
    joinSplits xs ys ≠ [] := by
  cases xs with
  | nil => exact absurd rfl hx
  | cons x xs => cases xs <;> cases ys <;> simp [joinSplits]

/-- Dropping blank material from the ends of the blob does not change the
number of non-blank lines. -/
lemma countNB_strip (cs : Str) :
    countNB (splitNl (pyStrip cs)) = countNB (splitNl cs) := by
  obtain ⟨p, q, hd, hp, hq⟩ := strip_decomp cs
  have h1 : splitNl cs =
      joinSplits (splitNl p)
        (joinSplits (splitNl (pyStrip cs)) (splitNl q)) := by
    conv_lhs => rw [hd, List.append_assoc]
    rw [splitNl_append, splitNl_append]
  rw [h1,
    countNB_joinSplits_left _ _ (blank_of_allWs p hp)
      (joinSplits_ne_nil _ _ (splitNl_ne_nil _)),
    countNB_joinSplits_right _ _ (splitNl_ne_nil _) (blank_of_allWs q hq)]

/-! ## Totality of the line parser -/

lemma pyStrip_eq_nil_iff (l : Str) : pyStrip l = [] ↔ isBlank l = true := by
  unfold pyStrip
  rw [List.reverse_eq_nil_iff, List.dropWhile_eq_nil_iff]
  constructor
  · intro h
    rw [isBlank, List.all_eq_true]
    intro c hc
    conv at hc => rw [← List.takeWhile_append_dropWhile pySpace l]
    rcases List.mem_append.mp hc with hc | hc
    · exact List.mem_takeWhile_imp hc
    · exact h c (List.mem_reverse.mpr hc)
  · intro h c hc
    exact (List.all_eq_true.mp h) c
      ((List.dropWhile_sublist pySpace).subset (List.mem_reverse.mp hc))

lemma tryPatterns_lineNumber :
    ∀ (pats : List (String × Regex × List String)) (l : Str) (ln : Nat)
      (e : RawEntry), tryPatterns pats l ln = some e → e.lineNumber = ln
  | [], _, _, _, h => by simp [tryPatterns] at h
  | (pname, r, gs) :: rest, l, ln, e, h => by
    simp only [tryPatterns] at h
    rcases hm : pymatch r l with _ | caps
    · rw [hm] at h
      exact tryPatterns_lineNumber rest l ln e h
    · rw [hm] at h
      cases h
      rfl

lemma parseSingleLine_of_nonblank (l : Str) (ln : Nat)
    (h : isBlank l = false) :
    ∃ e, parseSingleLine l ln = some e ∧ e.lineNumber = ln := by
  simp only [parseSingleLine]
  have hne : (pyStrip l).isEmpty = false := by
    rw [List.isEmpty_eq_false_iff_exists_mem]
    rcases hs : pyStrip l with _ | ⟨c, cs⟩
    · exact absurd ((pyStrip_eq_nil_iff l).mp hs) (by rw [h]; simp)
    · exact ⟨c, List.mem_cons_self _ _⟩
  rw [hne]
  simp only [Bool.false_eq_true, if_false]
  rcases ht : tryPatterns patternTable (pyStrip l) ln with _ | e
  · exact ⟨_, rfl, rfl⟩
  · exact ⟨e, rfl, tryPatterns_lineNumber _ _ _ _ ht⟩

lemma rawEntries_shape (ls : List Str) (k : Nat) :
    ((ls.enumFrom k).filterMap
      (fun p => if isBlank p.2 then none else parseSingleLine p.2 p.1)).length
    = countNB ls ∧
    ((ls.enumFrom k).filterMap
      (fun p => if isBlank p.2 then none else parseSingleLine p.2 p.1)).map
        (fun e => e.lineNumber)
    = (ls.enumFrom k).filterMap
        (fun p => if isBlank p.2 then none else some p.1) := by
  induction ls generalizing k with
  | nil => exact ⟨rfl, rfl⟩
  | cons l ls ih =>
    rw [List.enumFrom_cons]
    by_cases hb : isBlank l = true
    · constructor
      · simp [List.filterMap_cons, hb, countNB_cons, (ih (k+1)).1]
      · simp [List.filterMap_cons, hb, (ih (k+1)).2]
    · obtain ⟨e, he, hln⟩ := parseSingleLine_of_nonblank l k (by
        rw [Bool.eq_false_iff]; exact hb)
      constructor
      · simp [List.filterMap_cons, hb, he, countNB_cons, (ih (k+1)).1,
          Nat.add_comm]
      · simp [List.filterMap_cons, hb, he, (ih (k+1)).2, hln]

/-- C5: line parsing is total — the table has exactly one record per
non-blank input line (blank lines never produce records, nothing ever
fails), and a line matching no non-fallback pattern still yields the
fallback record: severity INFO, source unknown, pattern `fallback`, the
trimmed line as message. -/
theorem parse_totality :
    (∀ content : Str, (parseLogs content).length = countNonBlankLines content) ∧
    parseLogs (S "###???***") =
      [{ timestamp := none, severity := some (S "INFO"),
         source := S "unknown", message := some (S "###???***"),
         lineNumber := 1, hasTimestamp := false, messageLength := some 9,
         wordCount := some 1, patternUsed := "fallback",
         rawLine := S "###???***" }] := by
  constructor
  · intro content
    rw [parseLogs, List.length_map, rawEntries,
      (rawEntries_shape (splitNl (pyStrip content)) 1).1,
      countNonBlankLines, countNB_strip]
  · decide

/-- The spec's line numbering (1-based positions of the non-blank lines
inside the UNSPLIT, unstripped text).  This definition follows the
spec's words, for comparison with the implementation. -/
def specLineNumbersUnstripped (content : Str) : List Nat :=
  ((splitNl content).enumFrom 1).filterMap
    (fun p => if isBlank p.2 then none else some p.1)

/-- Counterexample to C1 as stated: a blob whose first line is blank.
The implementation strips the whole blob before splitting, so the
surviving line is numbered 1, not its original position 2. -/
theorem line_numbers_counterexample :
    (parseLogs (S "\nERROR boom")).map (fun r => r.lineNumber) ≠
      specLineNumbersUnstripped (S "\nERROR boom") ∧
    (parseLogs (S "\nERROR boom")).map (fun r => r.lineNumber) = [1] ∧
    specLineNumbersUnstripped (S "\nERROR boom") = [2] := by
  refine ⟨?_, by decide, by decide⟩
  decide

/-- C1 (amended): batch parsing first strips leading and trailing
whitespace off the whole blob, then splits on newlines; blank lines among
the remaining ones are dropped and each surviving line keeps its original
1-based position within the STRIPPED text (interior blank lines leave
gaps in the numbering, they do not cause renumbering) — so a blob whose
leading lines are blank numbers its first surviving line relative to the
stripped text, not the original blob. -/
theorem line_numbers_stripped (content : Str) :
    (parseLogs content).map (fun r => r.lineNumber) =
      ((splitNl (pyStrip content)).enumFrom 1).filterMap
        (fun p => if isBlank p.2 then none else some p.1) := by
  rw [parseLogs, rawEntries, List.map_map]
  have : (fun r : Record => r.lineNumber) ∘ postProcess =
      fun e : RawEntry => e.lineNumber := rfl
  rw [this, (rawEntries_shape (splitNl (pyStrip content)) 1).2]

/-! ## Severity normalization and timestamp coercion claims -/

/-- C8: the severity normalization table, applied case-insensitively
(uppercase first, then look up): FATAL/CRITICAL to FATAL, ERROR/ERR to
ERROR, WARN/WARNING to WARNING,
INFO/INFORMATION/NOTICE/TEST/REST/JSON/RAW to INFO, DEBUG/TRACE to
DEBUG; every unlisted token passes through uppercased but otherwise
unchanged; and every parsed record's severity is obtained exactly by
this normalization. -/
theorem severity_normalization :
    (∀ s : Str, s ≠ [] → severityMapping.lookup (pyUpper s) = none →
      normSeverity (some s) = some (pyUpper s)) ∧
    (∀ content : Str, (parseLogs content).map (fun r => r.severity) =
      (rawEntries content).map (fun e => normSeverity e.severity)) ∧
    (normSeverity (some (S "FATAL")) = some (S "FATAL") ∧
     normSeverity (some (S "CRITICAL")) = some (S "FATAL") ∧
     normSeverity (some (S "critical")) = some (S "FATAL") ∧
     normSeverity (some (S "ERROR")) = some (S "ERROR") ∧
     normSeverity (some (S "Err")) = some (S "ERROR") ∧
     normSeverity (some (S "WARN")) = some (S "WARNING") ∧
     normSeverity (some (S "warn")) = some (S "WARNING") ∧
     normSeverity (some (S "WARNING")) = some (S "WARNING") ∧
     normSeverity (some (S "INFO")) = some (S "INFO") ∧
     normSeverity (some (S "Information")) = some (S "INFO") ∧
     normSeverity (some (S "NOTICE")) = some (S "INFO") ∧
     normSeverity (some (S "TEST")) = some (S "INFO") ∧
     normSeverity (some (S "REST")) = some (S "INFO") ∧
     normSeverity (some (S "JSON")) = some (S "INFO") ∧
     normSeverity (some (S "RAW")) = some (S "INFO") ∧
     normSeverity (some (S "DEBUG")) = some (S "DEBUG") ∧
     normSeverity (some (S "trace")) = some (S "DEBUG") ∧
     normSeverity (some (S "quux")) = some (S "QUUX")) := by
  refine ⟨?_, ?_, by decide⟩
  · intro s hs hlook
    have hne : (pyUpper s).isEmpty = false := by
      cases s with
      | nil => exact absurd rfl hs
      | cons c cs => rfl
    simp [normSeverity, hne, hlook]
  · intro content
    simp only [parseLogs, List.map_map]
    rfl

lemma not_space_of_digit (c : Char) (h : c.isDigit = true) :
    pySpace c = false := by
  rw [Bool.eq_false_iff]
  intro hp
  simp only [pySpace, Bool.or_eq_true, decide_eq_true_iff] at hp
  rcases hp with ((((rfl | rfl) | rfl) | rfl) | rfl) | rfl <;>
    exact absurd h (by decide)

lemma dropWhile_eq_self_of_none (p : Char → Bool) (l : Str)
    (h : ∀ c ∈ l, p c = false) : l.dropWhile p = l := by
  cases l with
  | nil => rfl
  | cons c cs =>
    rw [List.dropWhile_cons,
      if_neg (by rw [h c (List.mem_cons_self _ _)]; simp)]

lemma pyStrip_of_digits (s : Str) (h : s.all isDigitC = true) :
    pyStrip s = s := by
  have hns : ∀ c ∈ s, pySpace c = false := fun c hc =>
    not_space_of_digit c (List.all_eq_true.mp h c hc)
  unfold pyStrip
  rw [dropWhile_eq_self_of_none _ _ hns,
    dropWhile_eq_self_of_none _ _
      (fun c hc => hns c (List.mem_reverse.mp hc)),
    List.reverse_reverse]

/-- C6: timestamp coercion is total — null in, null out; a purely-digit
token is interpreted first as a Unix epoch in seconds (with fall-through
on an invalid range); otherwise the fixed ordered format list is tried
with the first success winning, then the best-effort generic inference;
on total failure the result is null, and there is no error outcome. -/
theorem timestamp_coercion :
    (∀ s : Str, s ≠ [] → s.all isDigitC = true →
      natOfDigits s ≤ 253402300799 →
      parseTimestamp (some s) = epochToDateTime (natOfDigits s)) ∧
    (parseTimestamp none = none ∧
     parseTimestamp (some (S "1700000000")) =
       some ⟨2023, 11, 14, 22, 13, 20, 0, none⟩ ∧
     parseTimestamp (some (S "2023-01-01 12:00:00.123")) =
       some ⟨2023, 1, 1, 12, 0, 0, 123000, none⟩ ∧
     parseTimestamp (some (S "999999999999")) = none ∧
     parseTimestamp (some (S "not-a-date")) = none) := by
  refine ⟨?_, by decide⟩
  intro s hne hdig hrange
  have hraw : s.isEmpty = false := by
    cases s with
    | nil => exact absurd rfl hne
    | cons c cs => rfl
  have hstrip : pyStrip s = s := pyStrip_of_digits s hdig
  simp only [parseTimestamp, hraw, Bool.false_eq_true, if_false, hstrip]
  rw [if_pos (by rw [hdig]; rfl)]
  rw [epochToDateTime, if_pos hrange]

end ALV

